import Mathlib

/-!
Shallow embedding of the two request-handler variants in `api/generate.js`
(a combined-corpus variant, called V1 below, and a per-file merge variant,
called V2 below).  Strings are modelled at the level of character sequences:
a JS string becomes a Lean `String` (a list of characters), JS string
operations (`trim`, `split("\n")`, `slice`, regex matches used by the code)
are re-implemented below over `List Char` following the ECMAScript semantics
of the concrete patterns appearing in the source.
-/

/-- The ECMAScript whitespace set used by `String.prototype.trim` and by the
`\s` character class: TAB, LF, VT, FF, CR, SP, NBSP, and the Unicode space
separators together with ZWNBSP. -/
def isJsWs (c : Char) : Bool :=
  let n := c.toNat
  n == 9 || n == 10 || n == 11 || n == 12 || n == 13 || n == 32 || n == 160 ||
  n == 0x1680 || (decide (0x2000 ≤ n) && decide (n ≤ 0x200A)) || n == 0x2028 ||
  n == 0x2029 || n == 0x202F || n == 0x205F || n == 0x3000 || n == 0xFEFF

/-- Drop leading JS whitespace (the left half of `trim`). -/
def jsTrimLeft (cs : List Char) : List Char := cs.dropWhile isJsWs

/-- Drop trailing JS whitespace (the right half of `trim`). -/
def jsTrimRight (cs : List Char) : List Char := (cs.reverse.dropWhile isJsWs).reverse

/-- JS `String.prototype.trim`. -/
def jsTrim (cs : List Char) : List Char := jsTrimLeft (jsTrimRight cs)

/-- Trim, packaged on `String`. -/
def jsTrimS (s : String) : String := ⟨jsTrim s.data⟩

/-- JS `str.split("\n")`: `""` yields `[""]`, a trailing newline yields a
trailing empty piece. -/
def splitLines : List Char → List (List Char)
  | [] => [[]]
  | c :: rest =>
    match splitLines rest with
    | [] => [[]]
    | l :: ls => if c = '\n' then [] :: l :: ls else (c :: l) :: ls

/-- Number of characters with code point at least 32 (`charCodeAt(0) >= 32`
in `looksLikeText`, lines 14-15 and 189-190 of the source). -/
def printableCount (cs : List Char) : Nat :=
  (cs.filter (fun c => decide (32 ≤ c.toNat))).length

/-- Function `looksLikeText` of the combined-corpus variant (source lines 11-18):
`if (!text || !text.length) return false;` then
`printable / text.length > 0.8`.  The floating-point comparison
`printable / length > 0.8` agrees with the exact rational comparison
`5 * printable > 4 * length` for every string length representable in a JS
engine (the two can only disagree when `printable / length` falls within one
ulp of 0.8, which needs a length beyond 10^15), so the embedding uses the
exact integer form. -/
def looksLikeTextV1 (s : String) : Bool :=
  if s.data = [] then false
  else decide (4 * s.data.length < 5 * printableCount s.data)

/-- Function `looksLikeText` of the per-file variant (source lines 187-192):
`if (!text) return false;` then the same ratio test.  The empty string is
falsy in JS, so the guard coincides with the V1 guard. -/
def looksLikeTextV2 (s : String) : Bool :=
  if s.data = [] then false
  else decide (4 * s.data.length < 5 * printableCount s.data)

/-- Letters `TD` or `LR` at the head of the remaining input: the `(TD|LR)` part of
the extraction pattern `/(graph\s+(TD|LR)[\s\S]*)/` (no `i` flag, so the
letters are matched literally). -/
def tdOrLr : List Char → Bool
  | x :: y :: _ => (x == 'T' && y == 'D') || (x == 'L' && y == 'R')
  | _ => false

/-- After the literal `graph`: at least one whitespace, then `TD` or `LR`.
Greedy `\s+` is exact here because `T`/`L` are not whitespace. -/
def afterGraph : List Char → Bool
  | w :: rest => isJsWs w && tdOrLr (rest.dropWhile isJsWs)
  | [] => false

/-- The extraction pattern `/(graph\s+(TD|LR)[\s\S]*)/` can match starting at
the head of `cs`.  `[\s\S]*` always matches, so only the header part
constrains the position. -/
def headerAt (cs : List Char) : Bool :=
  "graph".data.isPrefixOf cs && afterGraph (cs.drop 5)

/-- Leftmost match of the extraction pattern: the suffix of the text starting
at the first position where the header pattern matches (what the capture
group `match[1]` denotes, since `[\s\S]*` runs to the end of the text). -/
def extractSuffix : List Char → Option (List Char)
  | [] => none
  | c :: rest => if headerAt (c :: rest) then some (c :: rest) else extractSuffix rest

/-- Shared extraction shape `rawText.match(...) ? match[1].trim() : fallback`
of source lines 164-169 and 216-221. -/
def extractDiagram (raw : String) (fallback : String) : String :=
  match extractSuffix raw.data with
  | some suf => ⟨jsTrim suf⟩
  | none => fallback

/-- Fallback fragment of the combined-corpus variant (source line 169). -/
def fallbackV1 : String := "graph TD\nA[\"No valid Mermaid diagram returned\"]"

/-- Fallback fragment of the per-file variant (source line 221). -/
def fallbackV2 : String := "graph TD\nA[\"No extractable legal entities found\"]"

/-- Diagram extraction of the combined-corpus variant (source lines 164-169). -/
def extractV1 (raw : String) : String := extractDiagram raw fallbackV1

/-- Diagram extraction inside `callClaude` of the per-file variant
(source lines 216-221). -/
def extractV2 (raw : String) : String := extractDiagram raw fallbackV2

/-- The anchored header-stripping replace of the per-file merger
(source line 307): `partialDiagram.replace(/^graph\s+(TD|LR)\s*/i, "")`.
The pattern is anchored, case-insensitive, and greedy; greediness is exact
because `t`/`l` (the letters after `\s+`) and everything after `\s*`
(nothing) are not whitespace.  On no match the string is unchanged. -/
def stripHeader (cs : List Char) : List Char :=
  match cs with
  | g :: r :: a :: p :: h :: rest =>
    if g.toLower == 'g' && r.toLower == 'r' && a.toLower == 'a' &&
       p.toLower == 'p' && h.toLower == 'h' then
      match rest with
      | w :: rest2 =>
        if isJsWs w then
          match rest2.dropWhile isJsWs with
          | x :: y :: rest4 =>
            if (x.toLower == 't' && y.toLower == 'd') ||
               (x.toLower == 'l' && y.toLower == 'r') then
              rest4.dropWhile isJsWs
            else cs
          | _ => cs
        else cs
      | [] => cs
    else cs
  | _ => cs

/-- Lines of one partial diagram as the merger sees them:
`partialDiagram.replace(/^graph\s+(TD|LR)\s*/i, "").split("\n")`
(source lines 307-309). -/
def fragmentLines (frag : String) : List (List Char) :=
  splitLines (stripHeader frag.data)

/-- One iteration of the merge loop body (source lines 309-315).  The state
is `(seenLines, mergedBody)`; the JS `Set` is modelled as the list of values
added so far, membership being all the code uses.  `mergedBody` is kept as
the list of appended lines; the string the code accumulates is each line
followed by `"\n"`, rebuilt by `mergedBodyStr`. -/
def dedupStep (st : List (List Char) × List (List Char)) (line : List Char) :
    List (List Char) × List (List Char) :=
  if jsTrim line ≠ [] ∧ jsTrim line ∉ st.1 then
    (jsTrim line :: st.1, st.2 ++ [jsTrim line])
  else st

/-- Merge one fragment into the dedup state. -/
def mergeFrag (st : List (List Char) × List (List Char)) (frag : String) :
    List (List Char) × List (List Char) :=
  (fragmentLines frag).foldl dedupStep st

/-- Dedup state after merging all fragments, starting from the empty state
(source lines 244-245, 304-315). -/
def mergeState (frags : List String) : List (List Char) × List (List Char) :=
  frags.foldl mergeFrag ([], [])

/-- The deduplicated body lines, in append order. -/
def mergeLines (frags : List String) : List (List Char) :=
  (mergeState frags).2

/-- Accumulator `mergedBody` as the string the code accumulates: each appended line
followed by a newline. -/
def concatLines : List (List Char) → List Char
  | [] => []
  | l :: ls => l ++ '\n' :: concatLines ls

/-- The accumulated `mergedBody` string. -/
def mergedBodyStr (frags : List String) : String := ⟨concatLines (mergeLines frags)⟩

/-- Constant `CLASS_STYLES` (source lines 320-328): a template literal opening and
closing with a newline, one `classDef` line per allowed entity class. -/
def CLASS_STYLES : String :=
  "\nclassDef case fill:#fef3c7,stroke:#92400e,stroke-width:1px,color:#000;\nclassDef person fill:#e0f2fe,stroke:#0369a1,stroke-width:1px,color:#000;\nclassDef organisation fill:#dcfce7,stroke:#166534,stroke-width:1px,color:#000;\nclassDef legal_issue fill:#fee2e2,stroke:#991b1b,stroke-width:1px,color:#000;\nclassDef event fill:#ede9fe,stroke:#5b21b6,stroke-width:1px,color:#000;\nclassDef document fill:#f1f5f9,stroke:#334155,stroke-width:1px,color:#000;\nclassDef location fill:#fff7ed,stroke:#9a3412,stroke-width:1px,color:#000;\n"

/-- The fixed taxonomy of allowed entity classes (spec section 4.6 / prompt
lines 107-113 and 278-284 of the source). -/
def allowedClasses : List String :=
  ["case", "person", "organisation", "legal_issue", "event", "document", "location"]

/-- The placeholder node line used when the merged body is empty
(source line 335). -/
def emptyBodyNode : String := "A[\"No extractable legal entities found\"]"

/-- Final diagram assembly of the per-file variant (source lines 330-336):
header, class styles, a blank line, then the merged body, or the placeholder
node when the merged body trims to the empty (falsy) string. -/
def finalDiagram (frags : List String) : String :=
  "graph TD\n" ++ CLASS_STYLES ++ "\n" ++
    (if jsTrim (mergedBodyStr frags).data = [] then emptyBodyNode else mergedBodyStr frags)

/-- An uploaded file as the handlers consume it: its original client-side
name and the UTF-8 decoding of its temporary file's bytes
(`buffer.toString("utf8")`). -/
structure UploadedFile where
  originalFilename : String
  content : String
deriving DecidableEq, Repr

/-- An HTTP response as produced through `res.status(...).send(...)`:
status code and text body. -/
structure HttpResponse where
  status : Nat
  body : String
deriving DecidableEq, Repr

/-- Extension gate `f.originalFilename.toLowerCase().endsWith(".txt")` (source line 49).
JS `toLowerCase` on the ASCII range is `Char.toLower`. -/
def hasTxtExt (name : String) : Bool :=
  ".txt".data.isSuffixOf (name.data.map Char.toLower)

/-- The diagnostic segment for an unsupported file type (source lines 50-53):
a template literal opening with a newline and closing with a newline. -/
def unsupportedSegment (name : String) : String :=
  "\n=== FILE: " ++ name ++ " ===\n[Unsupported file type. Only OCR-extracted text files are accepted.]\n"

/-- The diagnostic segment for content failing the readability test
(source lines 61-64). -/
def unreadableSegment (name : String) : String :=
  "\n=== FILE: " ++ name ++ " ===\n[File does not appear to contain readable text.]\n"

/-- The segment for successfully extracted text (source lines 74-77). -/
def okSegment (name : String) (text : String) : String :=
  "\n=== FILE: " ++ name ++ " ===\n" ++ text ++ "\n"

/-- Cap `MAX_CHARS` (source line 69). -/
def MAX_CHARS : Nat := 15000

/-- The truncation step of the combined-corpus variant (source lines 69-72):
`if (text.length > MAX_CHARS) text = text.slice(0, MAX_CHARS) + "\n[TRUNCATED]"`.
The boolean is the `truncated` flag of the spec's NormalizedSegment: whether
the branch was taken. -/
def normalizeV1 (text : String) : String × Bool :=
  if MAX_CHARS < text.length then (⟨text.data.take MAX_CHARS⟩ ++ "\n[TRUNCATED]", true)
  else (text, false)

/-- Per-file processing of the combined-corpus variant (source lines 47-78):
extension gate, decode-and-trim, readability gate, truncation, delimiter
wrapping; the returned string is what the iteration appends to
`combinedText`. -/
def processFileV1 (f : UploadedFile) : String :=
  if hasTxtExt f.originalFilename = false then unsupportedSegment f.originalFilename
  else
    let text := jsTrimS f.content
    if looksLikeTextV1 text = false then unreadableSegment f.originalFilename
    else okSegment f.originalFilename (normalizeV1 text).1

/-- Accumulated `combinedText` after the file loop of the combined-corpus variant. -/
def combinedTextOf (files : List UploadedFile) : String :=
  files.foldl (fun acc f => acc ++ processFileV1 f) ""

/-- The fixed instruction template of the combined-corpus variant
(source lines 89-133). -/
def promptTemplateV1 : String :=
  "You are a law concept diagram generator.\n\nGiven multiple documents, produce a single Mermaid concept map combining all relevant entities, locations, people, and events.\n\nOutput MUST start with 'graph TD' or 'graph LR'.\n\nSTRICT RULES (DO NOT VIOLATE):\n1. Output ONLY valid Mermaid code.\n2. Start the output with: graph TD\n3. DO NOT include explanations, comments, markdown, or prose.\n4. DO NOT create placeholder nodes.\n5. DO NOT invent data.\n6. EVERY node must represent a REAL entity explicitly found in the documents.\n\nMANDATORY STYLING RULES:\n- Assign Mermaid classes to every node using :::className\n- Use ONLY the following classes:\n\ncase\nperson\norganisation\nlegal_issue\nevent\ndocument\nlocation\n\nENTITY TYPES TO EXTRACT (only if present):\n- Persons\n- Organisations\n- Locations\n- Legal Status\n- Events\n- Documents\n\nSTRUCTURE RULES:\n- Use subgraphs for each entity type\n- Relationships must be explicit and labeled\n\nIF the documents contain NO extractable legal entities:\nOutput ONLY:\ngraph TD\nA[\"No extractable legal entities found\"]\n\nNow analyse the following documents and generate the Mermaid diagram.\n"

/-- The message content sent by the combined-corpus variant
(source lines 136 and 152): template, blank line, `DOCUMENTS:` marker,
the combined corpus. -/
def promptV1 (combined : String) : String :=
  promptTemplateV1 ++ "\n\nDOCUMENTS:\n" ++ combined

/-- The fixed instruction template of the per-file variant
(source lines 263-300), up to and including the `DOCUMENT:` marker line. -/
def promptTemplateV2 : String :=
  "You are a law concept diagram generator.\n\nGiven a document, generate a Mermaid concept diagram.\n\nOutput MUST start with 'graph TD' or 'graph LR'.\n\nSTRICT RULES:\n1. Output ONLY valid Mermaid code.\n2. Start with: graph TD\n3. NO explanations, comments, or markdown.\n4. DO NOT invent data.\n5. EVERY node must be a real entity from the document.\n6. Assign Mermaid classes using :::className.\n\nALLOWED CLASSES:\ncase\nperson\norganisation\nlegal_issue\nevent\ndocument\nlocation\n\nSTRUCTURE RULES:\n- Use subgraphs per entity type.\n- Node labels must include real names and attributes.\n- Relationships must be explicit and labeled.\n\nEXAMPLE:\nPERSON_A[\"ALAN YEO KENG HUA<br/>Role: Director\"]:::person\nORG_X[\"ASIA RESOURCES MANAGEMENT PTE LTD<br/>Status: Struck Off\"]:::organisation\nPERSON_A -->|Director| ORG_X\n\nIF no entities exist:\ngraph TD\nA[\"No extractable legal entities found\"]\n\nDOCUMENT:\n"

/-- The per-file prompt (source lines 263-302): the template followed by the
raw file content and a closing newline. -/
def promptV2 (content : String) : String :=
  promptTemplateV2 ++ content ++ "\n"

/-- The combined-corpus request handler (source lines 20-178), as a function
of the model oracle (raw text of the first content block of the remote
response, per prompt), the HTTP method, and the parsed files.  The multipart
parser, `fetch`, and the response JSON are external collaborators: a request
whose parsing or remote call throws takes the catch path and is outside this
function's domain. -/
def handlerV1 (oracle : String → String) (method : String)
    (files : List UploadedFile) : HttpResponse :=
  if method ≠ "POST" then ⟨405, "Method Not Allowed"⟩
  else if files = [] then ⟨400, "graph TD\nA[\"No files uploaded\"]"⟩
  else if jsTrim (combinedTextOf files).data = [] then
    ⟨200, "\ngraph TD\nA[\"No readable text received\"]:::document\n"⟩
  else ⟨200, extractV1 (oracle (promptV1 (combinedTextOf files)))⟩

/-- The catch-path response shared by both variants (source lines 174-176
and 341). -/
def serverErrorResponse : HttpResponse := ⟨500, "graph TD\nA[\"Server error – see logs\"]"⟩

/-- The per-file request handler (source lines 225-343): files failing the
readability test are skipped (`continue`, line 259); each remaining file's
content is embedded in a per-file prompt, the oracle's answer goes through
`callClaude`'s extraction, and the fragments are merged. -/
def handlerV2 (oracle : String → String) (method : String)
    (files : List UploadedFile) : HttpResponse :=
  if method ≠ "POST" then ⟨405, "Method Not Allowed"⟩
  else if files = [] then ⟨400, "graph TD\nA[\"No files uploaded\"]"⟩
  else
    ⟨200, finalDiagram (files.filterMap (fun f =>
      if looksLikeTextV2 f.content then some (extractV2 (oracle (promptV2 f.content)))
      else none))⟩

/-- Modelled from the spec (section 4.5, step (b)) for comparison with the
code: strip characters outside the printable ASCII range. -/
def specStripUnprintable (cs : List Char) : List Char :=
  cs.filter (fun c => decide (32 ≤ c.toNat) && decide (c.toNat ≤ 126))

/-- Modelled from the spec (section 4.5, step (b)) for comparison with the
code: collapse every run of consecutive whitespace to a single space. -/
def specCollapseWs : List Char → List Char
  | [] => []
  | [c] => if isJsWs c then [' '] else [c]
  | c :: d :: rest =>
    if isJsWs c && isJsWs d then specCollapseWs (d :: rest)
    else (if isJsWs c then ' ' else c) :: specCollapseWs (d :: rest)

/-- The spec's cleaning step, strip then collapse, for comparison with the
code's actual per-file processing. -/
def specNormalizeText (cs : List Char) : List Char :=
  specCollapseWs (specStripUnprintable cs)

example : extractV2 "graph TD\nA-->B" = "graph TD\nA-->B" := by decide
example : extractV2 "```mermaid\ngraph LR\nA-->B\n```" = "graph LR\nA-->B\n```" := by decide
example : extractV2 "GRAPH TD\nA" = fallbackV2 := by decide
example : extractV1 "nothing here" = fallbackV1 := by decide
example : looksLikeTextV1 "" = false := by decide
example : looksLikeTextV1 "John Smith" = true := by decide
example : looksLikeTextV2 "\x01\x01\x01\x01\x01" = false := by decide
example : jsTrimS "  a b \n" = "a b" := by decide
example : splitLines "a\n\nb".data = ["a".data, [], "b".data] := by decide
example : stripHeader "graph TD\nA-->B".data = "A-->B".data := by decide
example : stripHeader "GRAPH lr  X".data = "X".data := by decide
example : mergeLines ["graph TD\nA-->B\nC", "graph TD\nA-->B\nD"] =
    ["A-->B".data, "C".data, "D".data] := by decide
example : fragmentLines fallbackV2 = [emptyBodyNode.data] := by decide
example : hasTxtExt "Doc.TXT" = true := by decide
example : hasTxtExt "scan.png" = false := by decide
example : specNormalizeText "John \t Smith\x01!".data = "John Smith!".data := by decide
example : handlerV2 (fun _ => "x") "GET" [] = ⟨405, "Method Not Allowed"⟩ := by decide
example :
    handlerV1 (fun _ => "graph TD\nA") "POST" [⟨"a.txt", "John Smith"⟩] =
      ⟨200, "graph TD\nA"⟩ := by
  decide

/-! ## Whitespace and trim lemmas -/

theorem dropWhile_all {p : Char → Bool} {u : List Char} (h : ∀ c ∈ u, p c = true)
    (v : List Char) : (u ++ v).dropWhile p = v.dropWhile p := by
  induction u with
  | nil => rfl
  | cons c cs ih =>
    rw [List.cons_append, List.dropWhile_cons, h c (List.mem_cons_self ..)]
    exact ih fun d hd => h d (List.mem_cons_of_mem _ hd)

theorem mem_dropWhile_of_not {p : Char → Bool} {c : Char} (hc : p c = false) :
    ∀ {l : List Char}, c ∈ l → c ∈ l.dropWhile p := by
  intro l hm
  induction l with
  | nil => cases hm
  | cons a t ih =>
    rw [List.dropWhile_cons]
    by_cases ha : p a = true
    · rw [ha]
      simp only [if_true]
      rcases List.mem_cons.mp hm with rfl | hm2
      · rw [hc] at ha; cases ha
      · exact ih hm2
    · simp only [ha, if_false]
      exact hm

theorem dropWhile_head_false {p : Char → Bool} {c : Char} :
    ∀ {l t : List Char}, l.dropWhile p = c :: t → p c = false := by
  intro l
  induction l with
  | nil => intro t h; simp [List.dropWhile] at h
  | cons a u ih =>
    intro t h
    rw [List.dropWhile_cons] at h
    by_cases ha : p a = true
    · rw [if_pos ha] at h; exact ih h
    · rw [if_neg ha] at h
      injection h with h1 _
      subst h1
      simpa using ha

theorem jsTrimLeft_cons_not {c : Char} (hc : isJsWs c = false) (t : List Char) :
    jsTrimLeft (c :: t) = c :: t := by
  rw [jsTrimLeft, List.dropWhile_cons, hc]
  simp

theorem jsTrimRight_append_last (xs : List Char) (c : Char) (hc : isJsWs c = false)
    (rest : List Char) :
    jsTrimRight ((xs ++ [c]) ++ rest) = (xs ++ [c]) ++ jsTrimRight rest := by
  unfold jsTrimRight
  rw [List.reverse_append, List.reverse_append, List.reverse_singleton,
    List.singleton_append, List.dropWhile_append]
  by_cases he : (rest.reverse.dropWhile isJsWs).isEmpty = true
  · rw [if_pos he]
    rw [List.isEmpty_iff] at he
    rw [he, List.reverse_nil, List.append_nil, List.dropWhile_cons, hc]
    simp
  · rw [if_neg he]
    rw [List.reverse_append, List.reverse_cons, List.reverse_reverse, List.append_assoc]

/-! ## Header pattern lemmas -/

theorem tdOrLr_shape {l : List Char} (h : tdOrLr l = true) :
    ∃ rest, l = ['T', 'D'] ++ rest ∨ l = ['L', 'R'] ++ rest := by
  cases l with
  | nil => simp [tdOrLr] at h
  | cons x t =>
    cases t with
    | nil => simp [tdOrLr] at h
    | cons y rest =>
      simp only [tdOrLr, Bool.or_eq_true, Bool.and_eq_true, beq_iff_eq] at h
      rcases h with ⟨hx, hy⟩ | ⟨hx, hy⟩ <;> subst hx <;> subst hy
      · exact ⟨rest, Or.inl rfl⟩
      · exact ⟨rest, Or.inr rfl⟩

theorem headerAt_shape {cs : List Char} (h : headerAt cs = true) :
    ∃ w ws2 td rest, cs = "graph".data ++ w :: (ws2 ++ (td ++ rest)) ∧
      isJsWs w = true ∧ (∀ c ∈ ws2, isJsWs c = true) ∧
      (td = ['T', 'D'] ∨ td = ['L', 'R']) := by
  unfold headerAt at h
  rw [Bool.and_eq_true] at h
  obtain ⟨hp, ha⟩ := h
  rw [ List.isPrefixOf_iff_prefix] at hp
  obtain ⟨tail, htail⟩ := hp
  subst htail
  rw [show (5 : Nat) = ("graph".data).length from rfl, List.drop_left] at ha
  cases tail with
  | nil => simp [afterGraph] at ha
  | cons w rest2 =>
    simp only [afterGraph, Bool.and_eq_true] at ha
    obtain ⟨hw, htd⟩ := ha
    obtain ⟨rest, hsh⟩ := tdOrLr_shape htd
    rcases hsh with h2 | h2
    · refine ⟨w, rest2.takeWhile isJsWs, ['T', 'D'], rest, ?_, hw, ?_, Or.inl rfl⟩
      · rw [← h2, List.takeWhile_append_dropWhile]
      · intro c hc; exact List.mem_takeWhile_imp hc
    · refine ⟨w, rest2.takeWhile isJsWs, ['L', 'R'], rest, ?_, hw, ?_, Or.inr rfl⟩
      · rw [← h2, List.takeWhile_append_dropWhile]
      · intro c hc; exact List.mem_takeWhile_imp hc

theorem headerAt_construct {w : Char} {ws2 td rest : List Char}
    (hw : isJsWs w = true) (hws : ∀ c ∈ ws2, isJsWs c = true)
    (htd : td = ['T', 'D'] ∨ td = ['L', 'R']) :
    headerAt ("graph".data ++ w :: (ws2 ++ (td ++ rest))) = true := by
  unfold headerAt
  rw [Bool.and_eq_true]
  constructor
  · rw [ List.isPrefixOf_iff_prefix]
    exact ⟨_, rfl⟩
  · rw [show (5 : Nat) = ("graph".data).length from rfl, List.drop_left]
    simp only [afterGraph, Bool.and_eq_true]
    refine ⟨hw, ?_⟩
    rw [dropWhile_all hws]
    rcases htd with h | h <;> subst h <;>
      simp [List.dropWhile_cons, tdOrLr, show isJsWs 'T' = false from rfl,
        show isJsWs 'L' = false from rfl]

theorem headerAt_jsTrim {cs : List Char} (h : headerAt cs = true) :
    headerAt (jsTrim cs) = true := by
  obtain ⟨w, ws2, td, rest, hcs, hw, hws, htd⟩ := headerAt_shape h
  subst hcs
  obtain ⟨x, d, hxd, hd⟩ : ∃ x d, td = [x, d] ∧ isJsWs d = false := by
    rcases htd with h2 | h2 <;> subst h2
    · exact ⟨'T', 'D', rfl, by decide⟩
    · exact ⟨'L', 'R', rfl, by decide⟩
  subst hxd
  have hre : "graph".data ++ w :: (ws2 ++ ([x, d] ++ rest)) =
      (("graph".data ++ w :: (ws2 ++ [x])) ++ [d]) ++ rest := by
    simp
  rw [jsTrim, hre, jsTrimRight_append_last _ d hd rest]
  have hre2 : ("graph".data ++ w :: (ws2 ++ [x])) ++ [d] ++ jsTrimRight rest =
      'g' :: ("raph".data ++ w :: (ws2 ++ ([x, d] ++ jsTrimRight rest))) := by
    simp
  rw [hre2, jsTrimLeft_cons_not (by decide)]
  exact headerAt_construct hw hws htd

theorem headerAt_graphTD_append (z : List Char) : headerAt ("graph TD".data ++ z) = true := rfl

/-! ## Extraction lemmas -/

theorem extractSuffix_headerAt : ∀ {cs suf : List Char},
    extractSuffix cs = some suf → headerAt suf = true := by
  intro cs
  induction cs with
  | nil => intro suf h; simp [extractSuffix] at h
  | cons c rest ih =>
    intro suf h
    unfold extractSuffix at h
    split at h
    · next hh => injection h with h2; rw [← h2]; exact hh
    · exact ih h

theorem extractSuffix_first : ∀ (cs : List Char) (i : Nat),
    headerAt (cs.drop i) = true → (∀ j, j < i → headerAt (cs.drop j) = false) →
    extractSuffix cs = some (cs.drop i) := by
  intro cs
  induction cs with
  | nil =>
    intro i h _
    rw [List.drop_nil] at h
    exact absurd h (by decide)
  | cons c rest ih =>
    intro i h hj
    match i with
    | 0 =>
      rw [List.drop_zero] at h ⊢
      unfold extractSuffix
      rw [if_pos h]
    | i + 1 =>
      have h0 : headerAt (c :: rest) = false := by
        have := hj 0 (Nat.succ_pos i)
        rwa [List.drop_zero] at this
      unfold extractSuffix
      rw [if_neg (by simp [h0]), List.drop_succ_cons]
      exact ih i (by rwa [List.drop_succ_cons] at h)
        (fun j hji => by
          have := hj (j + 1) (Nat.succ_lt_succ hji)
          rwa [List.drop_succ_cons] at this)

/-! ## Merge loop invariants -/

/-- Invariant of the merge loop state: the seen set and the body hold the
same lines, the body has no duplicates, and every body line is the non-empty
trim of some raw line. -/
def MergeInv (st : List (List Char) × List (List Char)) : Prop :=
  (∀ l, l ∈ st.1 ↔ l ∈ st.2) ∧ st.2.Nodup ∧ ∀ l ∈ st.2, l ≠ [] ∧ ∃ raw, l = jsTrim raw

theorem mergeInv_init : MergeInv ([], []) :=
  ⟨fun _ => Iff.rfl, List.nodup_nil, by simp⟩

theorem dedupStep_inv {st : List (List Char) × List (List Char)}
    (h : MergeInv st) (line : List Char) : MergeInv (dedupStep st line) := by
  obtain ⟨hiff, hnd, hsrc⟩ := h
  unfold dedupStep
  split
  · next hcond =>
    obtain ⟨hne, hnotin⟩ := hcond
    refine ⟨?_, ?_, ?_⟩
    · intro l
      simp only [List.mem_cons, List.mem_append, List.not_mem_nil, or_false]
      constructor
      · rintro (rfl | hl)
        · exact Or.inr rfl
        · exact Or.inl ((hiff l).mp hl)
      · rintro (hl | rfl)
        · exact Or.inr ((hiff l).mpr hl)
        · exact Or.inl rfl
    · refine List.Nodup.append hnd (List.nodup_singleton _) ?_
      rw [List.disjoint_singleton]
      exact fun hmem => hnotin ((hiff _).mpr hmem)
    · intro l hl
      rcases List.mem_append.mp hl with h2 | h2
      · exact hsrc l h2
      · rw [List.mem_singleton] at h2
        subst h2
        exact ⟨hne, line, rfl⟩
  · exact ⟨hiff, hnd, hsrc⟩

theorem foldl_dedup_inv {st : List (List Char) × List (List Char)}
    (h : MergeInv st) (lines : List (List Char)) :
    MergeInv (lines.foldl dedupStep st) := by
  induction lines generalizing st with
  | nil => exact h
  | cons a t ih => exact ih (dedupStep_inv h a)

theorem foldl_mergeFrag_inv {st : List (List Char) × List (List Char)}
    (h : MergeInv st) (frags : List String) :
    MergeInv (frags.foldl mergeFrag st) := by
  induction frags generalizing st with
  | nil => exact h
  | cons f t ih => exact ih (foldl_dedup_inv h (fragmentLines f))

theorem mergeState_inv (frags : List String) : MergeInv (mergeState frags) :=
  foldl_mergeFrag_inv mergeInv_init frags

theorem mergeLines_nodup (frags : List String) : (mergeLines frags).Nodup :=
  (mergeState_inv frags).2.1

theorem mergeLines_src {frags : List String} {l : List Char}
    (h : l ∈ mergeLines frags) : l ≠ [] ∧ ∃ raw, l = jsTrim raw :=
  (mergeState_inv frags).2.2 l h

theorem dedupStep_out_extend (st : List (List Char) × List (List Char))
    (line : List Char) : ∃ t, (dedupStep st line).2 = st.2 ++ t := by
  unfold dedupStep
  split
  · exact ⟨[jsTrim line], rfl⟩
  · exact ⟨[], (List.append_nil _).symm⟩

theorem foldl_dedup_out_extend (st : List (List Char) × List (List Char))
    (lines : List (List Char)) : ∃ t, (lines.foldl dedupStep st).2 = st.2 ++ t := by
  induction lines generalizing st with
  | nil => exact ⟨[], (List.append_nil _).symm⟩
  | cons a l ih =>
    obtain ⟨t1, h1⟩ := dedupStep_out_extend st a
    obtain ⟨t2, h2⟩ := ih (dedupStep st a)
    exact ⟨t1 ++ t2, by rw [List.foldl_cons, h2, h1, List.append_assoc]⟩

theorem foldl_mergeFrag_out_extend (st : List (List Char) × List (List Char))
    (frags : List String) : ∃ t, (frags.foldl mergeFrag st).2 = st.2 ++ t := by
  induction frags generalizing st with
  | nil => exact ⟨[], (List.append_nil _).symm⟩
  | cons f l ih =>
    obtain ⟨t1, h1⟩ := foldl_dedup_out_extend st (fragmentLines f)
    obtain ⟨t2, h2⟩ := ih (mergeFrag st f)
    refine ⟨t1 ++ t2, ?_⟩
    rw [List.foldl_cons, h2, show (mergeFrag st f).2 = st.2 ++ t1 from h1, List.append_assoc]

theorem mem_foldl_dedup {st : List (List Char) × List (List Char)}
    (hinv : MergeInv st) {raw : List Char} {lines : List (List Char)}
    (hm : raw ∈ lines) (hne : jsTrim raw ≠ []) :
    jsTrim raw ∈ (lines.foldl dedupStep st).2 := by
  induction lines generalizing st with
  | nil => cases hm
  | cons a t ih =>
    rcases List.mem_cons.mp hm with rfl | hm2
    · have hmem : jsTrim raw ∈ (dedupStep st raw).2 := by
        unfold dedupStep
        split
        · next hc => simp
        · next hc =>
          have hin : jsTrim raw ∈ st.1 := by
            by_contra hno
            exact hc ⟨hne, hno⟩
          exact (hinv.1 _).mp hin
      obtain ⟨t2, h2⟩ := foldl_dedup_out_extend (dedupStep st raw) t
      rw [List.foldl_cons, h2]
      exact List.mem_append_left _ hmem
    · exact ih (dedupStep_inv hinv a) hm2

theorem mem_mergeLines {frags : List String} {frag : String} {raw : List Char}
    (hfrag : frag ∈ frags) (hraw : raw ∈ fragmentLines frag)
    (hne : jsTrim raw ≠ []) : jsTrim raw ∈ mergeLines frags := by
  obtain ⟨s, t, rfl⟩ := List.append_of_mem hfrag
  unfold mergeLines mergeState
  rw [List.foldl_append, List.foldl_cons]
  have hinv0 : MergeInv (s.foldl mergeFrag ([], [])) :=
    foldl_mergeFrag_inv mergeInv_init s
  have hmem : jsTrim raw ∈ (mergeFrag (s.foldl mergeFrag ([], [])) frag).2 :=
    mem_foldl_dedup hinv0 hraw hne
  obtain ⟨t2, h2⟩ := foldl_mergeFrag_out_extend (mergeFrag (s.foldl mergeFrag ([], [])) frag) t
  rw [h2]
  exact List.mem_append_left _ hmem

/-! ## Merged body lemmas -/

theorem concatLines_append (s t : List (List Char)) :
    concatLines (s ++ t) = concatLines s ++ concatLines t := by
  induction s with
  | nil => rfl
  | cons a u ih =>
    rw [List.cons_append, concatLines, concatLines, ih]
    simp

theorem mem_concatLines_split {l : List Char} {ls : List (List Char)} (h : l ∈ ls) :
    ∃ u v, concatLines ls = u ++ (l ++ '\n' :: v) := by
  obtain ⟨s, t, rfl⟩ := List.append_of_mem h
  exact ⟨concatLines s, concatLines t, by rw [concatLines_append]; rfl⟩

theorem jsTrim_head_not_ws {cs t : List Char} {c : Char} (h : jsTrim cs = c :: t) :
    isJsWs c = false :=
  dropWhile_head_false h

theorem jsTrim_ne_nil_of_mem {c : Char} {cs : List Char} (hm : c ∈ cs)
    (hc : isJsWs c = false) : jsTrim cs ≠ [] := by
  have h1 : c ∈ jsTrimRight cs := by
    unfold jsTrimRight
    rw [List.mem_reverse]
    exact mem_dropWhile_of_not hc (List.mem_reverse.mpr hm)
  have h2 : c ∈ jsTrim cs := mem_dropWhile_of_not hc h1
  intro h
  rw [h] at h2
  exact absurd h2 (List.not_mem_nil c)

theorem trim_body_empty_iff (frags : List String) :
    jsTrim (mergedBodyStr frags).data = [] ↔ mergeLines frags = [] := by
  constructor
  · intro h
    by_contra hne
    obtain ⟨l, hl⟩ := List.exists_mem_of_ne_nil _ hne
    obtain ⟨hlne, raw, hlraw⟩ := mergeLines_src hl
    obtain ⟨c, t, hct⟩ := List.exists_cons_of_ne_nil hlne
    have hcw : isJsWs c = false := jsTrim_head_not_ws (hlraw.symm.trans hct)
    have hcmem : c ∈ (mergedBodyStr frags).data := by
      show c ∈ concatLines (mergeLines frags)
      obtain ⟨u, v, huv⟩ := mem_concatLines_split hl
      rw [huv, hct]
      simp
    exact absurd h (jsTrim_ne_nil_of_mem hcmem hcw)
  · intro h
    unfold mergedBodyStr
    rw [h]
    rfl

/-! ## More extraction helper lemmas -/

theorem extractSuffix_none {cs : List Char}
    (h : ∀ i, headerAt (cs.drop i) = false) : extractSuffix cs = none := by
  induction cs with
  | nil => rfl
  | cons c rest ih =>
    have h0 : headerAt (c :: rest) = false := by
      have := h 0
      rwa [List.drop_zero] at this
    unfold extractSuffix
    rw [if_neg (by simp [h0])]
    exact ih fun i => by
      have := h (i + 1)
      rwa [List.drop_succ_cons] at this

theorem extract_result_header (fb : String) (hfb : headerAt (jsTrim fb.data) = true)
    (raw : String) : headerAt (jsTrim (extractDiagram raw fb).data) = true := by
  unfold extractDiagram
  cases he : extractSuffix raw.data with
  | none => exact hfb
  | some suf =>
    have h1 := extractSuffix_headerAt he
    show headerAt (jsTrim (jsTrim suf)) = true
    exact headerAt_jsTrim (headerAt_jsTrim h1)

theorem headerAt_jsTrim_graphTD (z : List Char) :
    headerAt (jsTrim ("graph TD".data ++ z)) = true :=
  headerAt_jsTrim (headerAt_graphTD_append z)

set_option maxRecDepth 40000 in
theorem finalDiagram_header (frags : List String) :
    headerAt (jsTrim (finalDiagram frags).data) = true := by
  have h : (finalDiagram frags).data = "graph TD".data ++
      ('\n' :: (CLASS_STYLES.data ++ '\n' ::
        (if jsTrim (mergedBodyStr frags).data = [] then emptyBodyNode
         else mergedBodyStr frags).data)) := rfl
  rw [h]
  exact headerAt_jsTrim_graphTD _

/-! ## Claim theorems -/

/-- C7: the readability classifier (both variants of `looksLikeText`) agrees
between the variants, returns false on the empty input, and on any input is
true exactly when the input is non-empty and the ratio of characters with
code point at least 32 to the total character count is strictly greater
than 0.8. -/
theorem looksLikeText_ratio_spec :
    looksLikeTextV1 "" = false ∧
    ∀ s : String, looksLikeTextV1 s = looksLikeTextV2 s ∧
      (looksLikeTextV1 s = true ↔
        s.data ≠ [] ∧
          (0.8 : ℚ) < (printableCount s.data : ℚ) / (s.data.length : ℚ)) := by
  refine ⟨rfl, fun s => ⟨rfl, ?_⟩⟩
  unfold looksLikeTextV1
  by_cases h : s.data = []
  · simp [h]
  · rw [if_neg h]
    simp only [decide_eq_true_eq]
    have hpos : (0 : ℚ) < (s.data.length : ℚ) := by
      have h0 : s.data.length ≠ 0 := fun h0 => h (List.eq_nil_of_length_eq_zero h0)
      exact_mod_cast Nat.pos_of_ne_zero h0
    constructor
    · intro hlt
      refine ⟨h, ?_⟩
      have hc : (4 : ℚ) * (s.data.length : ℚ) < 5 * (printableCount s.data : ℚ) := by
        exact_mod_cast hlt
      rw [lt_div_iff₀ hpos]
      linarith
    · rintro ⟨-, hgt⟩
      rw [lt_div_iff₀ hpos] at hgt
      have hc : (4 : ℚ) * (s.data.length : ℚ) < 5 * (printableCount s.data : ℚ) := by
        linarith
      exact_mod_cast hc

/-- C6 counterexample: a model response whose graph header differs only in
letter case is not extracted — the extraction pattern has no `i` flag, so
both variants return their fallback fragment instead of the substring
starting at the header. -/
theorem extract_case_counterexample :
    extractV2 "GRAPH TD\nA[\"x\"]" = fallbackV2 ∧
    extractV2 "GRAPH TD\nA[\"x\"]" ≠ "GRAPH TD\nA[\"x\"]" ∧
    extractV1 "GRAPH TD\nA[\"x\"]" = fallbackV1 := by
  exact ⟨by decide, by decide, by decide⟩

/-- C6 amended: the generation client extracts the substring starting at the
first case-sensitive match of a graph-declaration header (lowercase `graph`,
whitespace, then uppercase `TD` or `LR`) through the end of the text, trimmed
of surrounding whitespace; both variants extract identically, and leading
commentary before the first match is discarded. -/
theorem extract_first_match_suffix (raw : String) (i : Nat)
    (h1 : headerAt (raw.data.drop i) = true)
    (h2 : ∀ j, j < i → headerAt (raw.data.drop j) = false) :
    extractV1 raw = String.mk (jsTrim (raw.data.drop i)) ∧
    extractV2 raw = String.mk (jsTrim (raw.data.drop i)) := by
  have he := extractSuffix_first raw.data i h1 h2
  refine ⟨?_, ?_⟩ <;>
    · show extractDiagram raw _ = _
      unfold extractDiagram
      rw [he]

/-- C6 amended, witnessed: a concrete response with leading commentary before
a lowercase header is extracted from the header on. -/
theorem extract_first_match_suffix_witness :
    extractV2 "see:\ngraph TD\nA-->B" = "graph TD\nA-->B" := by
  have h := extract_first_match_suffix "see:\ngraph TD\nA-->B" 5 (by decide) (by decide)
  exact h.2.trans (by decide)

/-- C5 counterexample: the two pipeline variants do not share one fixed
fallback fragment — on the same headerless response the combined-corpus
variant answers "No valid Mermaid diagram returned" while the per-file
variant answers "No extractable legal entities found". -/
theorem fallback_not_shared_counterexample :
    extractV1 "no diagram here" = fallbackV1 ∧
    extractV2 "no diagram here" = fallbackV2 ∧
    fallbackV1 ≠ fallbackV2 := by
  exact ⟨by decide, by decide, by decide⟩

/-- C5 amended: on every model response without a (case-sensitive)
graph-declaration header each variant returns its own fixed fallback
fragment, never an empty string; the fallback fragments differ between the
two variants.  A response whose first content block is absent is read as the
empty text, which has no header and so also yields the fallback. -/
theorem extract_fallback_on_no_header (raw : String)
    (h : ∀ j, j < raw.data.length → headerAt (raw.data.drop j) = false) :
    extractV1 raw = fallbackV1 ∧ extractV2 raw = fallbackV2 ∧
    fallbackV1 ≠ "" ∧ fallbackV2 ≠ "" := by
  have hall : ∀ i, headerAt (raw.data.drop i) = false := by
    intro i
    by_cases hi : i < raw.data.length
    · exact h i hi
    · rw [List.drop_eq_nil_of_le (Nat.le_of_not_lt hi)]
      decide
  have hnone : extractSuffix raw.data = none := extractSuffix_none hall
  refine ⟨?_, ?_, by decide, by decide⟩ <;>
    · show extractDiagram raw _ = _
      unfold extractDiagram
      rw [hnone]

/-- C5 amended, witnessed at a concrete headerless response. -/
theorem extract_fallback_on_no_header_witness :
    extractV1 "hello" = fallbackV1 ∧ extractV2 "hello" = fallbackV2 ∧
    fallbackV1 ≠ "" ∧ fallbackV2 ≠ "" :=
  extract_fallback_on_no_header "hello" (by decide)

theorem count_eq_one_of_nodup_mem {l : List (List Char)} {a : List Char}
    (hnd : l.Nodup) (hm : a ∈ l) : l.count a = 1 := by
  induction l with
  | nil => cases hm
  | cons b t ih =>
    rw [List.count_cons]
    rcases List.mem_cons.mp hm with rfl | hm2
    · have hnotin : a ∉ t := (List.nodup_cons.mp hnd).1
      have hz : t.count a = 0 := List.count_eq_zero.mpr hnotin
      simp [hz]
    · have hne2 : b ≠ a := by
        rintro rfl
        exact (List.nodup_cons.mp hnd).1 hm2
      have hb : (b == a) = false := by simp [hne2]
      rw [ih (List.nodup_cons.mp hnd).2 hm2, hb]
      simp

/-- C1 counterexample: two fragments sharing the identical whitespace-only
line `" "`: its trimmed form is empty and is never appended, so the merged
body lines contain it zero times rather than exactly once. -/
theorem merge_dedup_blank_counterexample :
    (" ".data ∈ fragmentLines "graph TD\nA[\"x\"]\n \nC[\"c\"]" ∧
     " ".data ∈ fragmentLines "graph TD\nB[\"y\"]\n \nD[\"d\"]") ∧
    List.count (jsTrim " ".data)
      (mergeLines ["graph TD\nA[\"x\"]\n \nC[\"c\"]",
                   "graph TD\nB[\"y\"]\n \nD[\"d\"]"]) = 0 := by
  exact ⟨⟨by decide, by decide⟩, by decide⟩

/-- C1 amended: trimmed-line deduplication is global across the whole merge —
any raw line of any fragment whose trimmed form is non-empty appears exactly
once among the merged body lines; in particular two fragments sharing an
identical such line contribute it exactly once.  (Lines trimming to the empty
string are never appended at all.) -/
theorem merge_global_dedup (frags : List String) (frag : String) (raw : List Char)
    (hfrag : frag ∈ frags) (hraw : raw ∈ fragmentLines frag)
    (hne : jsTrim raw ≠ []) :
    List.count (jsTrim raw) (mergeLines frags) = 1 :=
  count_eq_one_of_nodup_mem (mergeLines_nodup frags) (mem_mergeLines hfrag hraw hne)

/-- C1 amended, witnessed: two fragments sharing the line `A-->B`; the merge
keeps it once. -/
theorem merge_global_dedup_witness :
    List.count ("A-->B".data)
      (mergeLines ["graph TD\nA-->B", "graph TD\nA-->B\nC"]) = 1 := by
  have h := merge_global_dedup ["graph TD\nA-->B", "graph TD\nA-->B\nC"]
    "graph TD\nA-->B" ("A-->B".data) (by decide) (by decide) (by decide)
  have e : jsTrim ("A-->B".data) = "A-->B".data := by decide
  rwa [e] at h

set_option maxRecDepth 100000 in
/-- C4: for every fragment list the merged diagram is the fixed `graph TD`
header, then the fixed class-style preamble holding exactly one `classDef`
line per allowed entity class, then a blank line, then either the
deduplicated body (when some line survived the merge) or the single
placeholder node line (when the merge produced no lines — including the empty
fragment list). -/
theorem merged_diagram_structure (frags : List String) :
    (∀ c ∈ allowedClasses,
      ((splitLines CLASS_STYLES.data).filter
        (fun l => (("classDef " ++ c).data).isPrefixOf l)).length = 1) ∧
    ((mergeLines frags = [] ∧
        finalDiagram frags = "graph TD\n" ++ CLASS_STYLES ++ "\n" ++ emptyBodyNode) ∨
     (mergeLines frags ≠ [] ∧
        finalDiagram frags = "graph TD\n" ++ CLASS_STYLES ++ "\n" ++ mergedBodyStr frags)) := by
  constructor
  · decide
  · by_cases h : mergeLines frags = []
    · left
      refine ⟨h, ?_⟩
      unfold finalDiagram
      rw [if_pos ((trim_body_empty_iff frags).mpr h)]
    · right
      refine ⟨h, ?_⟩
      unfold finalDiagram
      rw [if_neg fun hc => h ((trim_body_empty_iff frags).mp hc)]

/-- C10: whenever some per-file model call yielded the fallback fragment, the
merger strips its `graph TD` header and its diagnostic node line is among the
merged body lines, the final diagram contains that line, and every non-blank
trimmed line of every other fragment is kept alongside it. -/
theorem fallback_line_merged (frags : List String) (h : fallbackV2 ∈ frags) :
    emptyBodyNode.data ∈ mergeLines frags ∧
    (∃ u v, (finalDiagram frags).data = u ++ (emptyBodyNode.data ++ '\n' :: v)) ∧
    ∀ frag ∈ frags, ∀ raw ∈ fragmentLines frag, jsTrim raw ≠ [] →
      jsTrim raw ∈ mergeLines frags := by
  have hraw : emptyBodyNode.data ∈ fragmentLines fallbackV2 := by decide
  have hne : jsTrim emptyBodyNode.data ≠ [] := by decide
  have heq : jsTrim emptyBodyNode.data = emptyBodyNode.data := by decide
  have hline : emptyBodyNode.data ∈ mergeLines frags := by
    have hm := mem_mergeLines h hraw hne
    rwa [heq] at hm
  have hnn : mergeLines frags ≠ [] := by
    intro hc
    rw [hc] at hline
    exact absurd hline (List.not_mem_nil _)
  refine ⟨hline, ?_, fun frag hf raw hr hne2 => mem_mergeLines hf hr hne2⟩
  obtain ⟨u, v, huv⟩ := mem_concatLines_split hline
  refine ⟨("graph TD\n" ++ CLASS_STYLES ++ "\n").data ++ u, v, ?_⟩
  have hbody : finalDiagram frags =
      "graph TD\n" ++ CLASS_STYLES ++ "\n" ++ mergedBodyStr frags := by
    unfold finalDiagram
    rw [if_neg fun hc => hnn ((trim_body_empty_iff frags).mp hc)]
  rw [hbody]
  show (("graph TD\n" ++ CLASS_STYLES ++ "\n").data ++ (mergedBodyStr frags).data) = _
  rw [show (mergedBodyStr frags).data = concatLines (mergeLines frags) from rfl, huv,
    List.append_assoc]

/-- C10, witnessed: one fallback fragment and one real fragment; the final
merge keeps the diagnostic node line and the real entity line. -/
theorem fallback_line_merged_witness :
    emptyBodyNode.data ∈
      mergeLines [fallbackV2, "graph TD\nX[\"Acme Pte Ltd\"]:::organisation"] ∧
    "X[\"Acme Pte Ltd\"]:::organisation".data ∈
      mergeLines [fallbackV2, "graph TD\nX[\"Acme Pte Ltd\"]:::organisation"] := by
  have h := fallback_line_merged
    [fallbackV2, "graph TD\nX[\"Acme Pte Ltd\"]:::organisation"] (by decide)
  refine ⟨h.1, ?_⟩
  have h2 := h.2.2 "graph TD\nX[\"Acme Pte Ltd\"]:::organisation" (by decide)
    ("X[\"Acme Pte Ltd\"]:::organisation".data) (by decide) (by decide)
  have e : jsTrim ("X[\"Acme Pte Ltd\"]:::organisation".data) =
      "X[\"Acme Pte Ltd\"]:::organisation".data := by decide
  rwa [e] at h2

/-- C2 counterexample: the per-file pipeline applies no truncation at all — a
15001-character text (above the 15000-character cap) is embedded in the
per-file prompt verbatim, with no cap applied and nothing appended, so the
normalized-segment cap claim fails in per-file mode. -/
theorem perfile_no_truncation_counterexample :
    (String.mk (List.replicate 15001 'a')).length = 15001 ∧
    MAX_CHARS = 15000 ∧
    (promptV2 (String.mk (List.replicate 15001 'a'))).data =
      promptTemplateV2.data ++ (List.replicate 15001 'a' ++ ['\n']) := by
  refine ⟨?_, rfl, ?_⟩
  · show (List.replicate 15001 'a').length = 15001
    rw [List.length_replicate]
  · simp only [promptV2, String.data_append, List.append_assoc]

/-- C2 amended: only the combined-corpus variant truncates: there, text
longer than the cap is cut to exactly `MAX_CHARS` characters with the
truncation marker appended (`truncated` flag set), and text at or under the
cap passes through unmodified; the per-file variant performs no truncation. -/
theorem combined_truncation_cap (t : String) :
    (t.length > MAX_CHARS →
      (normalizeV1 t).1 = String.mk (t.data.take MAX_CHARS) ++ "\n[TRUNCATED]" ∧
      (String.mk (t.data.take MAX_CHARS)).length = MAX_CHARS ∧
      (normalizeV1 t).2 = true) ∧
    (t.length ≤ MAX_CHARS → normalizeV1 t = (t, false)) := by
  constructor
  · intro hgt
    unfold normalizeV1
    rw [if_pos hgt]
    refine ⟨rfl, ?_, rfl⟩
    show (t.data.take MAX_CHARS).length = MAX_CHARS
    rw [List.length_take]
    exact min_eq_left (le_of_lt hgt)
  · intro hle
    unfold normalizeV1
    rw [if_neg (not_lt.mpr hle)]

/-- C2 amended, witnessed at a 15100-character text: the truncated text part
has length exactly the cap and the flag is set. -/
theorem combined_truncation_cap_witness :
    (String.mk (List.replicate 15100 'b')).length > MAX_CHARS ∧
    (normalizeV1 (String.mk (List.replicate 15100 'b'))).2 = true ∧
    (String.mk ((List.replicate 15100 'b').take MAX_CHARS)).length = MAX_CHARS := by
  have hlen : (String.mk (List.replicate 15100 'b')).length > MAX_CHARS := by
    show MAX_CHARS < (List.replicate 15100 'b').length
    rw [List.length_replicate]
    decide
  have h := (combined_truncation_cap (String.mk (List.replicate 15100 'b'))).1 hlen
  exact ⟨hlen, h.2.2, h.2.1⟩

/-- C9 counterexample: combined-corpus normalization neither collapses
whitespace runs nor strips characters — the double space in "John  Smith"
survives into the delimiter-wrapped segment, which therefore differs from
the spec's cleaned, whitespace-collapsed text. -/
theorem no_whitespace_collapse_counterexample :
    processFileV1 ⟨"doc.txt", "John  Smith"⟩ = okSegment "doc.txt" "John  Smith" ∧
    specNormalizeText ("John  Smith".data) = "John Smith".data ∧
    processFileV1 ⟨"doc.txt", "John  Smith"⟩ ≠
      okSegment "doc.txt" (String.mk (specNormalizeText ("John  Smith".data))) := by
  exact ⟨by decide, by decide, by decide⟩

/-- C9 amended: for a supported, readable file whose trimmed content is
within the cap, the normalized segment is the delimiter-wrapped *trimmed
original* content: the only cleaning the combined-corpus variant performs is
the surrounding-whitespace trim — no character stripping, no whitespace
collapsing. -/
theorem segment_trimmed_passthrough (f : UploadedFile)
    (h1 : hasTxtExt f.originalFilename = true)
    (h2 : looksLikeTextV1 (jsTrimS f.content) = true)
    (h3 : (jsTrimS f.content).length ≤ MAX_CHARS) :
    processFileV1 f = okSegment f.originalFilename (jsTrimS f.content) := by
  have h4 : normalizeV1 (jsTrimS f.content) = (jsTrimS f.content, false) := by
    unfold normalizeV1
    rw [if_neg (not_lt.mpr h3)]
  simp [processFileV1, h1, h2, h4]

/-- C9 amended, witnessed: a file whose content carries surrounding blanks;
the segment wraps exactly the trimmed content. -/
theorem segment_trimmed_passthrough_witness :
    processFileV1 ⟨"doc.txt", " John Smith "⟩ =
      okSegment "doc.txt" (jsTrimS " John Smith ") ∧
    jsTrimS " John Smith " = "John Smith" := by
  exact ⟨segment_trimmed_passthrough ⟨"doc.txt", " John Smith "⟩
    (by decide) (by decide) (by decide), by decide⟩

set_option maxRecDepth 100000 in
/-- C3 counterexample: in per-file mode an unreadable file is skipped with no
placeholder — the response equals the one computed without that file, so its
contribution is silently empty and no segment tagged with its name exists. -/
theorem perfile_unreadable_skipped_counterexample :
    looksLikeTextV2 "\x01\x01\x01\x01\x01" = false ∧
    handlerV2 (fun _ => "graph TD\nX[\"Real\"]:::person") "POST"
        [⟨"scan.bin", "\x01\x01\x01\x01\x01"⟩, ⟨"doc.txt", "John Smith"⟩] =
      handlerV2 (fun _ => "graph TD\nX[\"Real\"]:::person") "POST"
        [⟨"doc.txt", "John Smith"⟩] := by
  exact ⟨by decide, by decide⟩

/-- C3 amended: only the combined-corpus variant substitutes diagnostic
placeholders: a file without the `.txt` extension yields the fixed
unsupported-type segment, a `.txt` file failing the readability test yields
the fixed unreadable segment, each tagged with the file name, and the loop
continues; the per-file variant skips unreadable files silently and has no
extension check. -/
theorem combined_placeholder_segments (f : UploadedFile) :
    (hasTxtExt f.originalFilename = false →
      processFileV1 f = unsupportedSegment f.originalFilename) ∧
    (hasTxtExt f.originalFilename = true →
      looksLikeTextV1 (jsTrimS f.content) = false →
      processFileV1 f = unreadableSegment f.originalFilename) ∧
    (∃ u v, (unsupportedSegment f.originalFilename).data =
      u ++ (f.originalFilename.data ++ v)) ∧
    (∃ u v, (unreadableSegment f.originalFilename).data =
      u ++ (f.originalFilename.data ++ v)) := by
  refine ⟨?_, ?_, ?_, ?_⟩
  · intro h
    simp [processFileV1, h]
  · intro h1 h2
    simp [processFileV1, h1, h2]
  · exact ⟨"\n=== FILE: ".data,
      " ===\n[Unsupported file type. Only OCR-extracted text files are accepted.]\n".data,
      by simp [unsupportedSegment, String.data_append]⟩
  · exact ⟨"\n=== FILE: ".data,
      " ===\n[File does not appear to contain readable text.]\n".data,
      by simp [unreadableSegment, String.data_append]⟩

/-- C3 amended, witnessed on one unsupported and one unreadable file. -/
theorem combined_placeholder_segments_witness :
    processFileV1 ⟨"image.png", "some bytes"⟩ = unsupportedSegment "image.png" ∧
    processFileV1 ⟨"scan.txt", "\x01\x01\x01\x01\x01"⟩ = unreadableSegment "scan.txt" := by
  exact ⟨(combined_placeholder_segments ⟨"image.png", "some bytes"⟩).1 (by decide),
    (combined_placeholder_segments ⟨"scan.txt", "\x01\x01\x01\x01\x01"⟩).2.1
      (by decide) (by decide)⟩

/-- C8 counterexample: a wrong-method request is answered 405 with the plain
text "Method Not Allowed" in both variants — a body that does not begin with
a graph-declaration header, refuting the claim for rejected requests. -/
theorem non_post_plain_body_counterexample :
    handlerV2 (fun _ => "") "GET" [] = ⟨405, "Method Not Allowed"⟩ ∧
    handlerV1 (fun _ => "") "GET" [] = ⟨405, "Method Not Allowed"⟩ ∧
    headerAt (jsTrim ("Method Not Allowed".data)) = false ∧
    ("graph".data).isPrefixOf ("Method Not Allowed".data) = false := by
  exact ⟨by decide, by decide, by decide, by decide⟩

/-- C8 amended: for every POST request — any oracle, any file list — the
response body of either variant begins, after trimming surrounding
whitespace, with a graph-declaration header; only wrong-method requests get
the plain text body. -/
theorem post_response_graph_header (oracle : String → String)
    (files : List UploadedFile) :
    headerAt (jsTrim ((handlerV1 oracle "POST" files).body).data) = true ∧
    headerAt (jsTrim ((handlerV2 oracle "POST" files).body).data) = true := by
  constructor
  · unfold handlerV1
    rw [if_neg (by simp)]
    by_cases hf : files = []
    · rw [if_pos hf]
      decide
    · rw [if_neg hf]
      by_cases hc : jsTrim (combinedTextOf files).data = []
      · rw [if_pos hc]
        decide
      · rw [if_neg hc]
        exact extract_result_header fallbackV1 (by decide) _
  · unfold handlerV2
    rw [if_neg (by simp)]
    by_cases hf : files = []
    · rw [if_pos hf]
      decide
    · rw [if_neg hf]
      exact finalDiagram_header _
